import Mathlib

/-!
Verification development for the port-mcp-enforcer policy reconciliation core.

The JavaScript sources are shallowly embedded as executable Lean definitions:

- the container classifier (src/planner/classify/classifier.js),
- the plan builder (src/planner/plan/plan-builder.js, the AUTHORITATIVE version),
- the policy registry (src/planner/policy/policies.js),
- the rollback plan builder (src/planner/output/rollback-plan-builder.js),
- the snapshot restore planner (src/snapshots/snapshot-manager.js),
- the executor gate sequence and preflight (src/executor/index.js,
  src/executor/preflight.js),
- the update-container-ports action handler
  (src/executor/actions/update-container-ports.js).

Modelling conventions: JavaScript numbers that hold confidences are modelled
as rationals; a JavaScript division a / b on them is written mkRat a b, which
is the same rational value and lets the kernel evaluate it. Strings are Lean
strings; a missing (undefined) string field is modelled as the empty string
where the code only tests it for truthiness. JavaScript Map objects are
modelled as association lists with the set-overwrite operation mapSet, which
preserves the insertion-order iteration semantics of Map. The wall clock
(Date.now()) is an explicit parameter.
-/

/-- Math.min on rationals, written as the code uses it. -/
def jsMin (a b : ℚ) : ℚ := if a ≤ b then a else b

/-- String.prototype.toLowerCase, character by character. -/
def lowerStr (s : String) : String := ⟨s.data.map Char.toLower⟩

/-- String.prototype.includes: substring containment. -/
def strContains (hay needle : String) : Bool :=
  (List.range (hay.data.length + 1)).any (fun i => needle.data.isPrefixOf (hay.data.drop i))

/-- Map.prototype.set on an association list: replace in place when the key
exists (keeping its original position), otherwise append. This is exactly the
iteration-order semantics of a JavaScript Map. -/
def mapSet {α : Type} (m : List (String × α)) (k : String) (v : α) : List (String × α) :=
  if m.any (fun e => e.1 == k) then m.map (fun e => if e.1 == k then (k, v) else e)
  else m ++ [(k, v)]

/-! ## Data model: containers and port bindings -/

/-- One published port of a container as seen by the classifier
(fields protocol and host are the ones it reads). -/
structure CPort where
  host : Nat
  containerPort : Nat
  protocol : String
deriving DecidableEq, Repr

/-- A container record from the normalized state feed. -/
structure Container where
  id : String
  name : String
  image : String
  running : Bool
  ports : List CPort
deriving DecidableEq, Repr

/-- A port binding as the plan builder and executor use it: the JS object
is written as braces host, container, protocol; the middle field is the
container-side port, named containerPort here. -/
structure PortBinding where
  host : Nat
  containerPort : Nat
  protocol : String
deriving DecidableEq, Repr

/-- One entry of state.ports: a published binding tagged with the container
name. An absent protocol is modelled as the empty string (the code applies
the default with: port.protocol or "tcp"). -/
structure StatePort where
  container : String
  host : Nat
  containerPort : Nat
  protocol : String
deriving DecidableEq, Repr

/-- The slice of normalized state the plan builder reads. -/
structure PState where
  containers : List Container
  ports : List StatePort
deriving DecidableEq, Repr

/-! ## Classifier (src/planner/classify/classifier.js) -/

def GAME_KEYWORDS : List String :=
  ["7dtd", "seven-days", "valheim", "minecraft", "factorio",
   "satisfactory", "conan", "rust", "icarus", "ark"]

def SYSTEM_KEYWORDS : List String :=
  ["traefik", "nginx", "caddy", "port-mcp", "docker",
   "watchtower", "unraid", "grafana", "prometheus"]

def APP_KEYWORDS : List String :=
  ["postgres", "mysql", "redis", "mongo", "node",
   "api", "web", "ui", "dashboard"]

/-- norm(v): String(v or "").toLowerCase(). -/
def jsNorm (v : String) : String := lowerStr v

/-- containsAny(haystack, needles). -/
def containsAny (haystack : String) (needles : List String) : Bool :=
  needles.any (fun n => strContains haystack n)

/-- hasUdpPorts(container). -/
def hasUdpPorts (c : Container) : Bool :=
  c.ports.any (fun p => jsNorm p.protocol == "udp")

/-- hasTcpOnlyPorts(container): at least one port and every port tcp. -/
def hasTcpOnlyPorts (c : Container) : Bool :=
  decide (c.ports.length > 0) && c.ports.all (fun p => jsNorm p.protocol == "tcp")

/-- gamePortSignal(container): some host port at 20000 or above. -/
def gamePortSignal (c : Container) : Bool :=
  c.ports.any (fun p => decide (p.host ≥ 20000))

/-- An override value: either a bare category string or an object carrying a
category field (the source accepts both shapes). -/
inductive OverrideVal where
  | str (category : String)
  | obj (category : String)
deriving DecidableEq, Repr

/-- getOverrideCategory(overrides, containerName). A present but empty
category string is falsy at every use site, so it is folded into none. -/
def getOverrideCategory (overrides : List (String × OverrideVal)) (containerName : String) :
    Option String :=
  match overrides.lookup containerName with
  | none => none
  | some (OverrideVal.str c) => if c = "" then none else some c
  | some (OverrideVal.obj c) => if c = "" then none else some c

/-- A classification record as returned per container. -/
structure Classification where
  id : String
  name : String
  image : String
  category : String
  confidence : ℚ
  reasons : List String
  tags : List String
deriving DecidableEq, Repr

/-- Keyword hit on name or image against the game keyword set. -/
def gameKeywordHit (c : Container) : Bool :=
  containsAny (jsNorm c.name) GAME_KEYWORDS || containsAny (jsNorm c.image) GAME_KEYWORDS

/-- Keyword hit on name or image against the infrastructure keyword set. -/
def systemKeywordHit (c : Container) : Bool :=
  containsAny (jsNorm c.name) SYSTEM_KEYWORDS || containsAny (jsNorm c.image) SYSTEM_KEYWORDS

/-- Keyword hit on name or image against the application keyword set. -/
def appKeywordHit (c : Container) : Bool :=
  containsAny (jsNorm c.name) APP_KEYWORDS || containsAny (jsNorm c.image) APP_KEYWORDS

/-- score.system after all accumulation steps. -/
def systemScore (c : Container) : Nat :=
  if systemKeywordHit c then 2 else 0

/-- score.apps after all accumulation steps. -/
def appsScore (c : Container) : Nat :=
  (if appKeywordHit c then 1 else 0) + (if hasTcpOnlyPorts c then 1 else 0)

/-- score.games after all accumulation steps. -/
def gamesScore (c : Container) : Nat :=
  (if gameKeywordHit c then 2 else 0) + (if hasUdpPorts c then 2 else 0)
    + (if gamePortSignal c then 1 else 0)

/-- The reasons list in accumulation order. -/
def classifyReasons (c : Container) : List String :=
  (if gameKeywordHit c then ["matches known game keywords"] else [])
  ++ (if systemKeywordHit c then ["matches infrastructure keywords"] else [])
  ++ (if appKeywordHit c then ["matches application keywords"] else [])
  ++ (if hasUdpPorts c then ["exposes UDP ports"] else [])
  ++ (if hasTcpOnlyPorts c then ["TCP-only exposure"] else [])
  ++ (if gamePortSignal c then ["host ports in typical game range"] else [])

/-- The decision step of classifyContainer: Object.entries(score) in insertion
order (system, apps, games), stably sorted by score descending, then the
top-versus-runner-up test. Returned as (category, confidence). -/
def sortDecision (s a g : Nat) : String × ℚ :=
  let ordered := List.insertionSort (fun x y : String × Nat => y.2 ≤ x.2)
    [("system", s), ("apps", a), ("games", g)]
  let top := ordered.getD 0 ("", 0)
  let second := ordered.getD 1 ("", 0)
  if top.2 > 0 ∧ second.2 + 1 ≤ top.2 then
    (top.1, jsMin (mkRat 95 100) (mkRat top.2 5))
  else ("unknown", mkRat 2 10)

/-- classifyContainer(container, overrides). -/
def classifyContainer (c : Container) (overrides : List (String × OverrideVal)) :
    Classification :=
  match getOverrideCategory overrides c.name with
  | some oc => ⟨c.id, c.name, c.image, oc, 1, ["user override"], []⟩
  | none =>
    let dec := sortDecision (systemScore c) (appsScore c) (gamesScore c)
    ⟨c.id, c.name, c.image, dec.1, dec.2, classifyReasons c, []⟩

/-- The decision rule as the specification words it: the result is the top
category exactly when its score is positive and strictly exceeds both other
scores (equivalently, exceeds the runner-up by at least 1); otherwise
unknown with confidence 0.2. Written from the claim text, to be compared
with sortDecision. -/
def claimDecision (s a g : Nat) : String × ℚ :=
  if g > 0 ∧ g > s ∧ g > a then ("games", jsMin (mkRat 95 100) (mkRat g 5))
  else if s > 0 ∧ s > a ∧ s > g then ("system", jsMin (mkRat 95 100) (mkRat s 5))
  else if a > 0 ∧ a > s ∧ a > g then ("apps", jsMin (mkRat 95 100) (mkRat a 5))
  else ("unknown", mkRat 2 10)

/-- The category and confidence the specification predicts for a container
without an override. -/
def claimCategoryConfidence (c : Container) : String × ℚ :=
  claimDecision (systemScore c) (appsScore c) (gamesScore c)

/-! ## Policy registry (src/planner/policy/policies.js) -/

/-- A policy record. startPort and protocol are present only on the apps
policy, hence optional. -/
structure Policy where
  id : String
  appliesTo : String
  description : String
  mode : String
  startPort : Option Nat
  protocol : Option String
  enforceable : Bool
  rationale : String
deriving DecidableEq, Repr

def POLICIES : List Policy :=
  [⟨"apps-port-layout", "apps",
    "Applications should use a fixed incremental TCP port layout for consistency",
    "incremental", some 5000, some "tcp", true,
    "Provides predictable ports for dashboards, bookmarks, and proxies"⟩,
   ⟨"games-port-review", "games",
    "Game servers require explicit review of port assignments",
    "manual", none, none, true,
    "Game servers often require wide or dynamic port ranges"⟩,
   ⟨"system-protection", "system",
    "System containers must never have ports modified automatically",
    "protected", none, none, true,
    "Prevents breaking core infrastructure services"⟩,
   ⟨"unknown-classification", "unknown",
    "Unclassified containers require human review before any action",
    "manual", none, none, true,
    "Insufficient information to safely apply policies"⟩]

def getPoliciesForCategory (category : String) : List Policy :=
  POLICIES.filter (fun p => p.appliesTo == category)

/-! ## Plan builder (src/planner/plan/plan-builder.js, AUTHORITATIVE) -/

/-- A classification entry as the plan builder reads it: it destructures only
name, category and confidence. A missing category is the empty string; a
missing confidence is none. -/
structure ClassifiedContainer where
  name : String
  category : String
  confidence : Option ℚ
deriving DecidableEq, Repr

/-- Projection of a classifier result to the plan builder input shape. -/
def toPlanInput (cl : Classification) : ClassifiedContainer :=
  ⟨cl.name, cl.category, some cl.confidence⟩

/-- buildPortMap followed by portMap.get(name) or []: the bindings of a
container, with the default protocol "tcp" applied, skipping entries with a
falsy container name. The state itself is optional (buildPlan accepts
state = null). -/
def portsOf (st : Option PState) (name : String) : List PortBinding :=
  match st with
  | none => []
  | some s =>
    (s.ports.filter (fun p => p.container != "" && p.container == name)).map
      (fun p => ⟨p.host, p.containerPort, if p.protocol = "" then "tcp" else p.protocol⟩)

/-- buildContainerMap followed by containerMap.get(name): Map.set overwrites,
so the last container with the name wins; unnamed containers are skipped. -/
def containerOf (st : Option PState) (name : String) : Option Container :=
  match st with
  | none => none
  | some s => (s.containers.filter (fun c => c.name != "" && c.name == name)).getLast?

/-- Sequentially assign host ports counter, counter+1, ... to a list of TCP
ports, preserving the container-side port (the inner loop of
generateIncrementalLayout). -/
def assignHosts : Nat → List PortBinding → List PortBinding
  | _, [] => []
  | n, p :: rest => ⟨n, p.containerPort, "tcp"⟩ :: assignHosts (n + 1) rest

/-- The fold of generateIncrementalLayout over the sorted container list,
threading (assignments map, next port counter). -/
def layoutFold (pm : String → List PortBinding) :
    List ClassifiedContainer → List (String × List PortBinding) × Nat →
    List (String × List PortBinding) × Nat
  | [], acc => acc
  | c :: rest, (assignments, nextPort) =>
    let currentPorts := pm c.name
    let tcpPorts := currentPorts.filter (fun p => p.protocol == "tcp")
    let udpPorts := currentPorts.filter (fun p => p.protocol == "udp")
    let newPorts := assignHosts nextPort tcpPorts ++ udpPorts
    let assignments2 :=
      if newPorts.length > 0 then mapSet assignments c.name newPorts else assignments
    layoutFold pm rest (assignments2, nextPort + tcpPorts.length)

/-- generateIncrementalLayout(containers, portMap, startPort): sort by name
(Array.prototype.sort is stable), then walk the shared counter. -/
def generateIncrementalLayout (containers : List ClassifiedContainer)
    (pm : String → List PortBinding) (startPort : Nat) :
    List (String × List PortBinding) :=
  (layoutFold pm
    (List.insertionSort (fun x y : ClassifiedContainer => x.name ≤ y.name) containers)
    ([], startPort)).1

/-- The incremental layout as the specification words it: walk the already
sorted opted-in containers with one shared counter starting at the given
port; give each TCP port the next counter value, keep the container-side
port, append the UDP ports unchanged; containers with no ports get no entry.
Written from the claim text, to be compared with generateIncrementalLayout. -/
def claimLayout (pm : String → List PortBinding) :
    List ClassifiedContainer → Nat → List (String × List PortBinding)
  | [], _ => []
  | c :: rest, counter =>
    let tcp := (pm c.name).filter (fun p => p.protocol == "tcp")
    let udp := (pm c.name).filter (fun p => p.protocol == "udp")
    let entry := assignHosts counter tcp ++ udp
    (if entry.length > 0 then [(c.name, entry)] else [])
      ++ claimLayout pm rest (counter + tcp.length)

/-- portsChanged(fromPorts, toPorts): length test, then set comparison of the
normalized keys host:container/protocol (a JavaScript Set collapses
duplicates, modelled with dedup). -/
def portsChanged (fromPorts toPorts : List PortBinding) : Bool :=
  if fromPorts.length != toPorts.length then true
  else
    let key := fun (p : PortBinding) =>
      toString p.host ++ ":" ++ toString p.containerPort ++ "/" ++ p.protocol
    let fromSet := (fromPorts.map key).dedup
    let toSet := (toPorts.map key).dedup
    if fromSet.length != toSet.length then true
    else fromSet.any (fun k => !(toSet.contains k))

/-- The policyContext object attached to each action. -/
structure PolicyContext where
  id : String
  status : String
  enforceable : Bool
  reason : String
  confidenceUsed : Option ℚ
deriving DecidableEq, Repr

/-- A plan action. Non-mutation actions carry no from and to fields,
modelled as none. -/
structure PlanAction where
  type : String
  container : String
  executable : Bool
  fromPorts : Option (List PortBinding)
  toPorts : Option (List PortBinding)
  policyContext : PolicyContext
deriving DecidableEq, Repr

/-- The plan object buildPlan returns: generatedAt is Date.now(), passed in
explicitly. Note it carries no dryRun and no summary field. -/
structure Plan where
  generatedAt : Nat
  actionCount : Nat
  executableCount : Nat
  actions : List PlanAction
deriving DecidableEq, Repr

/-- The buildPlan override accessor: override?.category is only defined when
the override value is an object with a category field (a bare string override
has no category property); an empty category string is falsy. -/
def overrideCategoryField (ov : List (String × OverrideVal)) (name : String) : Option String :=
  match ov.lookup name with
  | some (OverrideVal.obj c) => if c = "" then none else some c
  | _ => none

/-- policyEnforcement?.[name] === true. -/
def enforcedFor (enf : List (String × Bool)) (name : String) : Bool :=
  (enf.lookup name).getD false

/-- confidenceUsed !== null && confidenceUsed < 0.9. -/
def lowConfidence (confidenceUsed : Option ℚ) : Bool :=
  match confidenceUsed with
  | some q => decide (q < mkRat 9 10)
  | none => false

/-- The body of the per-container loop of buildPlan: exactly one action per
classification entry, chosen by the policy decision chain. -/
def actionForContainer (st : Option PState) (ov : List (String × OverrideVal))
    (enf : List (String × Bool)) (assignments : List (String × List PortBinding))
    (c : ClassifiedContainer) : PlanAction :=
  let name := c.name
  let effectiveCategory := (overrideCategoryField ov name).getD c.category
  let confidenceUsed : Option ℚ :=
    if (overrideCategoryField ov name).isSome then some 1 else c.confidence
  let primaryPolicy := (getPoliciesForCategory effectiveCategory).head?
  let userEnforced := enforcedFor enf name
  let containerState := containerOf st name
  if effectiveCategory = "" ∨ effectiveCategory = "unknown" then
    ⟨"manual-review", name, false, none, none,
      ⟨"unknown-classification", "blocking", false,
       "Container could not be confidently classified", confidenceUsed⟩⟩
  else if lowConfidence confidenceUsed then
    ⟨"manual-review", name, false, none, none,
      ⟨"low-confidence-classification", "blocking", false,
       "Classifier confidence below safe threshold", confidenceUsed⟩⟩
  else if effectiveCategory = "games" then
    ⟨"review-game-ports", name, false, none, none,
      ⟨"games-port-review", "blocking", false,
       "Game servers require explicit review of port assignments", confidenceUsed⟩⟩
  else if effectiveCategory = "system" then
    ⟨"no-op", name, false, none, none,
      ⟨"system-protection", "protected", true,
       "System containers are protected from automatic mutation", confidenceUsed⟩⟩
  else
    match primaryPolicy, decide (effectiveCategory = "apps") with
    | some pp, true =>
      let enforceable := pp.enforceable
      let enforced := enforceable && userEnforced
      let canExecute := enforced && ((containerState.map Container.running).getD false)
        && (assignments.lookup name).isSome
      if canExecute then
        let currentPorts := portsOf st name
        let desiredPorts := (assignments.lookup name).getD []
        if portsChanged currentPorts desiredPorts then
          ⟨"update-container-ports", name, true, some currentPorts, some desiredPorts,
            ⟨pp.id, "enforced", true,
             "Applying incremental port layout per user opt-in", confidenceUsed⟩⟩
        else
          ⟨"no-op", name, false, none, none,
            ⟨pp.id, "compliant", true,
             "Container already complies with incremental layout", confidenceUsed⟩⟩
      else if enforced && !((containerState.map Container.running).getD false) then
        ⟨"no-op", name, false, none, none,
          ⟨pp.id, "blocked-not-running", true,
           "Container must be running for policy enforcement", confidenceUsed⟩⟩
      else
        ⟨"no-op", name, false, none, none,
          ⟨pp.id, (if enforceable then "enforceable-opt-in" else "present-not-enforced"),
           enforceable,
           (if enforceable then "Policy may be enforced if user opts in"
            else "Policy exists but enforcement is disabled"), confidenceUsed⟩⟩
    | _, _ =>
      ⟨"no-op", name, false, none, none,
        ⟨"no-policy", "no-action-required", false, "No applicable policy", confidenceUsed⟩⟩

/-- buildPlan({classification, state, overrides, policyEnforcement}) with the
wall clock (Date.now()) made an explicit first argument. The classification
is taken in the containers-array format. -/
def buildPlan (now : Nat) (classification : List ClassifiedContainer) (st : Option PState)
    (ov : List (String × OverrideVal)) (enf : List (String × Bool)) : Plan :=
  let appsWithEnforcement := classification.filter (fun c =>
    ((if c.category = "" then "unknown" else c.category) == "apps") && enforcedFor enf c.name)
  let incrementalAssignments :=
    if decide (appsWithEnforcement.length > 0) && st.isSome then
      generateIncrementalLayout appsWithEnforcement (portsOf st) 5000
    else []
  let actions := classification.map (actionForContainer st ov enf incrementalAssignments)
  ⟨now, actions.length, (actions.filter (fun a => a.executable == true)).length, actions⟩

/-! ## Rollback plan builder (src/planner/output/rollback-plan-builder.js) -/

/-- One port snapshot entry as stored in job preState.ports and
postState.ports. -/
structure SnapPort where
  container : String
  protocol : String
  containerPort : Nat
  host : Nat
deriving DecidableEq, Repr

/-- key(p): container::protocol::containerPort. -/
def snapKey (p : SnapPort) : String :=
  p.container ++ "::" ++ p.protocol ++ "::" ++ toString p.containerPort

/-- A rollback action: type is always update-container-ports; from and to are
single host port numbers or null, not binding lists; there is no containerPort,
no executable flag and no policyContext. -/
structure RollbackAction where
  type : String
  container : String
  protocol : String
  fromHost : Option Nat
  toHost : Option Nat
deriving DecidableEq, Repr

/-- The rollback plan object: kind, dryRun, summary, actions. Note it carries
no actionCount and no executableCount field. -/
structure RollbackPlan where
  kind : String
  dryRun : Bool
  summary : String
  actions : List RollbackAction
deriving DecidableEq, Repr

/-- Build preMap or postMap: fold Map.set over the ports, skipping containers
outside the allowed set. -/
def buildSnapMap (ports : List SnapPort) (allowed : List String) :
    List (String × SnapPort) :=
  ports.foldl
    (fun m p => if allowed.contains p.container then mapSet m (snapKey p) p else m) []

/-- buildRollbackPlan({prePorts, postPorts, selectedContainers}). An unset
selectedContainers is none; the code turns it into an empty allowed set via
new Set(selectedContainers or []). -/
def buildRollbackPlan (prePorts postPorts : List SnapPort)
    (selectedContainers : Option (List String)) : RollbackPlan :=
  let allowed := selectedContainers.getD []
  let preMap := buildSnapMap prePorts allowed
  let postMap := buildSnapMap postPorts allowed
  let removeActions := postMap.filterMap (fun e =>
    if (preMap.lookup e.1).isSome then none
    else some ⟨"update-container-ports", e.2.container, e.2.protocol, some e.2.host, none⟩)
  let restoreActions := preMap.filterMap (fun e =>
    match postMap.lookup e.1 with
    | none => some ⟨"update-container-ports", e.2.container, e.2.protocol, none, some e.2.host⟩
    | some post =>
      if post.host != e.2.host then
        some ⟨"update-container-ports", e.2.container, e.2.protocol, some post.host, some e.2.host⟩
      else none)
  let actions := removeActions ++ restoreActions
  ⟨"rollback", true, "Rollback " ++ toString actions.length ++ " port change(s)", actions⟩

/-- The restriction of a port snapshot to an allowed container list. -/
def selectPorts (ports : List SnapPort) (allowed : List String) : List SnapPort :=
  ports.filter (fun p => allowed.contains p.container)

/-- The rollback action set as the specification words it, over already
restricted snapshots: one removal action per key only in post, one restore
action per key only in pre, one change action per key in both with differing
hosts, nothing for unchanged keys. Written from the claim text, to be
compared with buildRollbackPlan. -/
def claimRollbackActions (pre post : List SnapPort) : List RollbackAction :=
  (post.filter (fun q => !(pre.any (fun p => snapKey p == snapKey q)))).map
    (fun q => ⟨"update-container-ports", q.container, q.protocol, some q.host, none⟩)
  ++ pre.filterMap (fun p =>
      match post.find? (fun q => snapKey q == snapKey p) with
      | none => some ⟨"update-container-ports", p.container, p.protocol, none, some p.host⟩
      | some q =>
        if q.host != p.host then
          some ⟨"update-container-ports", p.container, p.protocol, some q.host, some p.host⟩
        else none)

/-! ## Snapshot restore planner (src/snapshots/snapshot-manager.js) -/

/-- The restore key: container:containerPort/protocol. -/
def restoreKey (p : SnapPort) : String :=
  p.container ++ ":" ++ toString p.containerPort ++ "/" ++ p.protocol

/-- shouldInclude(containerName): selectedContainers null means no filter;
a given list (even empty) restricts membership. -/
def shouldInclude (selected : Option (List String)) (name : String) : Bool :=
  match selected with
  | none => true
  | some l => l.contains name

/-- The per-container accumulator of createRestorePlan: parallel from and to
lists; from entries may be null. -/
structure RestoreGroup where
  fromL : List (Option PortBinding)
  toL : List PortBinding
deriving DecidableEq, Repr

/-- A restore action: from and to are PortBinding lists. -/
structure RestoreAction where
  type : String
  container : String
  fromPorts : List PortBinding
  toPorts : List PortBinding
  reason : String
deriving DecidableEq, Repr

/-- The restore plan object. -/
structure RestorePlan where
  kind : String
  source : String
  sourceTimestamp : Nat
  dryRun : Bool
  summary : String
  actions : List RestoreAction
deriving DecidableEq, Repr

/-- byContainer bookkeeping: get-or-create the group of a container and push
one (from, to) pair, in Map insertion order. -/
def addEntry (bc : List (String × RestoreGroup)) (c : String)
    (fv : Option PortBinding) (tv : PortBinding) : List (String × RestoreGroup) :=
  if bc.any (fun e => e.1 == c) then
    bc.map (fun e => if e.1 == c then (c, ⟨e.2.fromL ++ [fv], e.2.toL ++ [tv]⟩) else e)
  else bc ++ [(c, ⟨[fv], [tv]⟩)]

/-- Build the preMap or postMap of createRestorePlan (restore keys, container
filter). -/
def restoreMapOf (ports : List SnapPort) (selected : Option (List String)) :
    List (String × SnapPort) :=
  ports.foldl
    (fun m p => if shouldInclude selected p.container then mapSet m (restoreKey p) p else m) []

/-- The grouping loop of createRestorePlan: walk preMap in order; a key also
in postMap contributes (post host, pre containerPort, pre protocol) to from
and the pre binding to to; a key only in preMap contributes null to from. -/
def byContainerOf (preM postM : List (String × SnapPort)) :
    List (String × RestoreGroup) :=
  preM.foldl (fun bc e =>
    match postM.lookup e.1 with
    | some post =>
      addEntry bc e.2.container (some ⟨post.host, e.2.containerPort, e.2.protocol⟩)
        ⟨e.2.host, e.2.containerPort, e.2.protocol⟩
    | none => addEntry bc e.2.container none ⟨e.2.host, e.2.containerPort, e.2.protocol⟩) []

/-- createRestorePlan(snapshot, selectedContainers), with the snapshot
flattened to its pre and post port lists and the metadata fields it reads. -/
def createRestorePlan (preP postP : List SnapPort) (selected : Option (List String))
    (jobId : String) (finishedAt : Nat) : RestorePlan :=
  let preMap := restoreMapOf preP selected
  let postMap := restoreMapOf postP selected
  let byContainer := byContainerOf preMap postMap
  let actions := byContainer.filterMap (fun e =>
    if e.2.toL.isEmpty then none
    else some ⟨"update-container-ports", e.1, e.2.fromL.filterMap id, e.2.toL,
      "Restore from snapshot " ++ jobId⟩)
  ⟨"restore", jobId, finishedAt, true,
   "Restore " ++ toString actions.length ++ " container(s) to snapshot state", actions⟩

/-! ## Executor gates and preflight (src/executor/index.js, preflight.js) -/

/-- The allowed action types of the executor preflight. -/
def allowedTypes : List String :=
  ["review-game-ports", "manual-review", "reserve-port", "release-port",
   "update-container-ports"]

/-- The PlanAction type set as the specification declares it. Written from
the claim text, to be compared with allowedTypes. -/
def claimedPlanActionTypes : List String :=
  ["manual-review", "review-game-ports", "no-op", "update-container-ports"]

/-- The shape of an action as the executor dispatch reads it. -/
structure ExecAction where
  type : String
  container : String
deriving DecidableEq, Repr

/-- A loaded plan as the executor reads it. -/
structure ExecPlan where
  dryRun : Bool
  actions : List ExecAction
deriving DecidableEq, Repr

/-- preflight(plan): reject on the first action whose type is outside the
allowed set. -/
def preflight (plan : ExecPlan) : Except String Unit :=
  match plan.actions.find? (fun a => !(allowedTypes.contains a.type)) with
  | some a => Except.error ("Unsupported action type: " ++ a.type)
  | none => Except.ok ()

/-- Observable executor events: the interactive confirmation gates and each
handler dispatch. -/
inductive ExecEvent where
  | confirmApplyGate
  | downtimeGate
  | dispatched (type container : String)
deriving DecidableEq, Repr

/-- Executor options: the consent flags, plus the answers the interactive
confirmations would return when asked. -/
structure ExecOpts where
  apply : Bool
  yes : Bool
  allowDockerMutation : Bool
  confirmApplyAnswer : Bool
  confirmDowntimeAnswer : Bool
deriving DecidableEq, Repr

/-- The sequential dispatch loop: look up a handler per action type and run
it; any failure aborts the remaining plan. -/
def execLoop (hasHandler : String → Bool) (runHandler : ExecAction → Except String Unit) :
    List ExecAction → List ExecEvent → Except String String × List ExecEvent
  | [], evs => (Except.ok "success", evs)
  | a :: rest, evs =>
    if hasHandler a.type then
      match runHandler a with
      | Except.ok _ => execLoop hasHandler runHandler rest (evs ++ [ExecEvent.dispatched a.type a.container])
      | Except.error e => (Except.error e, evs ++ [ExecEvent.dispatched a.type a.container])
    else (Except.error ("No handler for " ++ a.type), evs)

/-- runExecutor(opts) on an in-memory plan object, with the handler registry
and handler outcomes abstracted as parameters. The gate order is that of the
source: apply flag, preflight, general confirmation (skipped with yes),
mutation flag, downtime confirmation, then strictly sequential dispatch. -/
def runExecutor (opts : ExecOpts) (hasHandler : String → Bool)
    (runHandler : ExecAction → Except String Unit) (plan : ExecPlan) :
    Except String String × List ExecEvent :=
  if !opts.apply then (Except.error "Refusing to execute without --apply", [])
  else
    match preflight plan with
    | Except.error e => (Except.error e, [])
    | Except.ok _ =>
      if !opts.yes && !opts.confirmApplyAnswer then
        (Except.ok "aborted", [ExecEvent.confirmApplyGate])
      else
        let evs1 : List ExecEvent := if opts.yes then [] else [ExecEvent.confirmApplyGate]
        let requiresDocker := plan.actions.any (fun a => a.type == "update-container-ports")
        if requiresDocker && !opts.allowDockerMutation then
          (Except.error "Plan contains Docker mutation but --allow-docker-mutation was not provided", evs1)
        else if requiresDocker && !opts.confirmDowntimeAnswer then
          (Except.ok "aborted", evs1 ++ [ExecEvent.downtimeGate])
        else
          let evs2 := if requiresDocker then evs1 ++ [ExecEvent.downtimeGate] else evs1
          execLoop hasHandler runHandler plan.actions evs2

/-! ## update-container-ports handler (src/executor/actions/update-container-ports.js) -/

/-- normProto(p). -/
def normProto (p : String) : String := lowerStr p

/-- portFlag(binding): validate protocol and port ranges, produce the docker
publish flag host:container/proto. -/
def portFlag (b : PortBinding) : Except String String :=
  let proto := normProto b.protocol
  if !(["tcp", "udp"].contains proto) then
    Except.error ("invalid protocol " ++ b.protocol ++ " (expected tcp/udp)")
  else if !(decide (1 ≤ b.host) && decide (b.host ≤ 65535)) then
    Except.error "invalid host port"
  else if !(decide (1 ≤ b.containerPort) && decide (b.containerPort ≤ 65535)) then
    Except.error "invalid container port"
  else Except.ok (toString b.host ++ ":" ++ toString b.containerPort ++ "/" ++ proto)

/-- The normalized comparison key host:container/proto used by samePortList. -/
def portCmpKey (b : PortBinding) : String :=
  toString b.host ++ ":" ++ toString b.containerPort ++ "/" ++ normProto b.protocol

/-- samePortList(a, b): equality of the two key sets (JavaScript Sets,
modelled by dedup lists: same size and inclusion). -/
def samePortList (a b : List PortBinding) : Bool :=
  let sa := (a.map portCmpKey).dedup
  let sb := (b.map portCmpKey).dedup
  sa.length == sb.length && sa.all (fun v => sb.contains v)

/-- The mutation action input of the handler. -/
structure UpdateAction where
  container : String
  fromPorts : List PortBinding
  toPorts : List PortBinding
deriving DecidableEq, Repr

/-- The live runtime facts about the target container that the handler
inspects: existence, running state, actually published bindings, and the
inspect-derived fields it needs to recreate the container. -/
structure DockerContainerState where
  present : Bool
  running : Bool
  published : List PortBinding
  inspectName : String
  inspectImage : String
  additionalNetworks : List String
deriving DecidableEq, Repr

/-- The destructive runtime calls the handler can issue. -/
inductive DockerCall where
  | stop
  | remove
  | create
  | networkConnect (name : String)
  | start
deriving DecidableEq, Repr

/-- updateContainerPorts(action, opts) against a modelled runtime: returns
the result together with the ordered list of destructive calls issued.
Validation and preflight failures issue no destructive call. -/
def updateContainerPorts (action : UpdateAction) (docker : DockerContainerState)
    (dryRun : Bool) : Except String String × List DockerCall :=
  if action.container = "" then
    (Except.error "update-container-ports requires container, from[], to[]", [])
  else if action.fromPorts.isEmpty then
    (Except.error "update-container-ports requires non-empty from[]", [])
  else if action.toPorts.isEmpty then
    (Except.error "update-container-ports requires non-empty to[]", [])
  else if dryRun then
    match action.toPorts.mapM portFlag with
    | Except.error e => (Except.error e, [])
    | Except.ok _ => (Except.ok "validated", [])
  else if !docker.present then
    (Except.error ("container not found: " ++ action.container), [])
  else if !docker.running then
    (Except.error ("container is not running: " ++ action.container ++ " (refusing to mutate)"), [])
  else if !samePortList docker.published action.fromPorts then
    (Except.error ("preflight mismatch: plan.from does not match current published ports for " ++ action.container), [])
  else
    match action.toPorts.mapM portFlag with
    | Except.error e => (Except.error e, [])
    | Except.ok _ =>
      if docker.inspectName = "" then
        (Except.error "cannot derive container name from inspect", [])
      else if docker.inspectImage = "" then
        (Except.error "cannot derive image from inspect", [])
      else
        (Except.ok "success",
          [DockerCall.stop, DockerCall.remove, DockerCall.create]
            ++ docker.additionalNetworks.map DockerCall.networkConnect
            ++ [DockerCall.start])

/-- A minimal JSON value, enough to express what reqArray sees when a
rollback action reaches the handler. -/
inductive JVal where
  | jnull
  | jnum (n : Nat)
  | jarr (xs : List JVal)

/-- reqArray(v): Array.isArray(v) and v.length > 0. -/
def reqArrayOk : JVal → Bool
  | JVal.jarr xs => !xs.isEmpty
  | _ => false

/-- The JSON value found in the from field of a rollback action: a bare host
number or null, never an array. -/
def rollbackFromJson (a : RollbackAction) : JVal :=
  match a.fromHost with
  | none => JVal.jnull
  | some h => JVal.jnum h

/-! ## Concrete inputs used by witnesses and counterexamples -/

/-- The minecraft scenario container: image contains minecraft, one UDP port
below 20000, no other scoring signal. -/
def mcContainer : Container :=
  ⟨"1", "mc-server", "itzg/minecraft-server", true, [⟨19132, 19132, "udp"⟩]⟩

/-- A container matching only the application keyword set, TCP only. -/
def redisContainer : Container :=
  ⟨"2", "redis-cache", "redis:7", true, [⟨6379, 6379, "tcp"⟩]⟩

/-- The web1 scenario container: running, one TCP binding 8080 to 80. -/
def web1Container : Container :=
  ⟨"3", "web1", "mycorp/web1", true, [⟨8080, 80, "tcp"⟩]⟩

/-- The web1 scenario state. -/
def web1State : PState := ⟨[web1Container], [⟨"web1", 8080, 80, "tcp"⟩]⟩

/-- The web1 scenario classification entry: apps with confidence 0.95. -/
def web1Classified : ClassifiedContainer := ⟨"web1", "apps", some (mkRat 95 100)⟩

/-- A pre snapshot with one changed and one removed binding. -/
def preSnapTwo : List SnapPort := [⟨"c1", "tcp", 80, 8080⟩, ⟨"c1", "udp", 90, 9090⟩]

/-- The matching post snapshot: tcp 80 moved to host 5000, udp 90 gone. -/
def postSnapTwo : List SnapPort := [⟨"c1", "tcp", 80, 5000⟩]

/-- A one-entry pre snapshot. -/
def preSnapOne : List SnapPort := [⟨"c1", "tcp", 80, 8080⟩]

/-- The matching one-entry post snapshot with a changed host. -/
def postSnapOne : List SnapPort := [⟨"c1", "tcp", 80, 5000⟩]

/-- A mutation action moving tcp 80 from host 8080 to host 5000. -/
def mismatchAction : UpdateAction := ⟨"c1", [⟨8080, 80, "tcp"⟩], [⟨5000, 80, "tcp"⟩]⟩

/-- A runtime whose published bindings (host 9090) drift from the action
from list. -/
def mismatchDocker : DockerContainerState := ⟨true, true, [⟨9090, 80, "tcp"⟩], "c1", "img", []⟩

/-- The executable action buildPlan emits in the web1 scenario. -/
def web1UpdateAction : PlanAction :=
  ⟨"update-container-ports", "web1", true,
   some [⟨8080, 80, "tcp"⟩], some [⟨5000, 80, "tcp"⟩],
   ⟨"apps-port-layout", "enforced", true,
    "Applying incremental port layout per user opt-in", some (mkRat 95 100)⟩⟩

/-- A concrete port map used to exercise the incremental layout: container a
has one TCP and one UDP binding, every other container one TCP binding. -/
def layoutPm : String → List PortBinding := fun n =>
  if n = "a" then [⟨1000, 80, "tcp"⟩, ⟨1001, 53, "udp"⟩] else [⟨2000, 8080, "tcp"⟩]

/-! ## Helper lemmas -/

theorem mapSet_fresh {α : Type} (m : List (String × α)) (k : String) (v : α)
    (h : m.any (fun e => e.1 == k) = false) : mapSet m k v = m ++ [(k, v)] := by
  unfold mapSet
  rw [h]
  rfl

theorem sortDecision_eq_claimDecision (s a g : Nat) :
    sortDecision s a g = claimDecision s a g := by
  unfold sortDecision claimDecision
  by_cases h1 : a ≤ s <;> by_cases h2 : g ≤ s <;> by_cases h3 : g ≤ a <;>
    simp only [List.insertionSort, List.orderedInsert, h1, h2, h3, if_true, if_false,
      List.getD_cons_zero, List.getD_cons_succ, ite_true, ite_false] <;>
    split_ifs <;>
    first
      | rfl
      | (exfalso; omega)

/-- C4: for every container without an override, the classifier result is the
scored decision the specification describes: the category of strictly
maximal positive score with confidence min(0.95, score/5), and unknown with
confidence 0.2 when no strict positive maximum exists; the per-category
scores are the keyword, UDP, TCP-only and high-host-port signals with the
stated weights. -/
theorem classifier_score_decision (c : Container) (ov : List (String × OverrideVal))
    (h : getOverrideCategory ov c.name = none) :
    (classifyContainer c ov).category = (claimCategoryConfidence c).1 ∧
    (classifyContainer c ov).confidence = (claimCategoryConfidence c).2 := by
  unfold classifyContainer claimCategoryConfidence
  rw [h, sortDecision_eq_claimDecision]
  exact ⟨rfl, rfl⟩

/-- Witness for classifier_score_decision: a container hitting only the
application keyword set with TCP-only exposure scores apps=2 and is
classified apps with confidence 0.4. -/
theorem classifier_score_decision_witness :
    getOverrideCategory [] redisContainer.name = none ∧
    ((classifyContainer redisContainer []).category = (claimCategoryConfidence redisContainer).1 ∧
     (classifyContainer redisContainer []).confidence = (claimCategoryConfidence redisContainer).2) ∧
    (claimCategoryConfidence redisContainer) = ("apps", mkRat 2 5) :=
  ⟨rfl, classifier_score_decision redisContainer [] rfl, by decide⟩

/-- C8 counterexample: two calls of buildPlan with identical classification,
state, overrides and enforcement inputs but different clock readings return
different outputs, because generatedAt embeds Date.now(). -/
theorem buildPlan_generatedAt_counterexample :
    buildPlan 0 [] none [] [] ≠ buildPlan 1 [] none [] [] := by decide

/-- C8 amended: the actions array, actionCount and executableCount of
buildPlan depend only on (classification, state, overrides,
policyEnforcement), not on the clock; only generatedAt varies. -/
theorem buildPlan_actions_deterministic (t1 t2 : Nat) (cls : List ClassifiedContainer)
    (st : Option PState) (ov : List (String × OverrideVal)) (enf : List (String × Bool)) :
    (buildPlan t1 cls st ov enf).actions = (buildPlan t2 cls st ov enf).actions ∧
    (buildPlan t1 cls st ov enf).actionCount = (buildPlan t2 cls st ov enf).actionCount ∧
    (buildPlan t1 cls st ov enf).executableCount = (buildPlan t2 cls st ov enf).executableCount :=
  ⟨rfl, rfl, rfl⟩

/-- C2 counterexample: a plan consisting of one no-op action is rejected by
preflight although no-op is in the declared PlanAction type set, and a plan
with a reserve-port action passes although reserve-port is outside that set. -/
theorem preflight_noop_counterexample :
    preflight ⟨true, [⟨"no-op", "c1"⟩]⟩ = Except.error "Unsupported action type: no-op" ∧
    "no-op" ∈ claimedPlanActionTypes ∧
    preflight ⟨true, [⟨"reserve-port", "c1"⟩]⟩ = Except.ok () ∧
    "reserve-port" ∉ claimedPlanActionTypes :=
  ⟨rfl, by decide, rfl, by decide⟩

/-- C2 amended: preflight accepts a plan exactly when every action type lies
in the executor allowed set (review-game-ports, manual-review, reserve-port,
release-port, update-container-ports), and a plan containing any action with
a type outside this set makes runExecutor abort with an error before any
confirmation gate is asked and before any handler is dispatched (the event
trace is empty). -/
theorem preflight_allowed_types_characterization (plan : ExecPlan) (opts : ExecOpts)
    (hasHandler : String → Bool) (runHandler : ExecAction → Except String Unit)
    (happly : opts.apply = true) :
    (preflight plan = Except.ok () ↔ ∀ a ∈ plan.actions, a.type ∈ allowedTypes) ∧
    (∀ a ∈ plan.actions, a.type ∉ allowedTypes →
      ∃ msg, runExecutor opts hasHandler runHandler plan = (Except.error msg, [])) := by
  have hchar : ∀ x : ExecAction,
      ((!(allowedTypes.contains x.type)) = true ↔ x.type ∉ allowedTypes) := by
    intro x
    rw [Bool.not_eq_true', Bool.eq_false_iff]
    exact not_congr List.elem_iff
  constructor
  · constructor
    · intro hok a ha
      by_contra hbad
      have hsome : (plan.actions.find? (fun x => !(allowedTypes.contains x.type))).isSome :=
        List.find?_isSome.mpr ⟨a, ha, (hchar a).mpr hbad⟩
      rcases hf : plan.actions.find? (fun x => !(allowedTypes.contains x.type)) with _ | b
      · rw [hf] at hsome; simp at hsome
      · unfold preflight at hok
        rw [hf] at hok
        exact Except.noConfusion hok
    · intro hall
      unfold preflight
      rcases hf : plan.actions.find? (fun x => !(allowedTypes.contains x.type)) with _ | b
      · rw [hf]
      · have hb := List.find?_some hf
        have hmem := List.mem_of_find?_eq_some hf
        exact absurd (hall b hmem) ((hchar b).mp hb)
  · intro a ha hbad
    have hsome : (plan.actions.find? (fun x => !(allowedTypes.contains x.type))).isSome :=
      List.find?_isSome.mpr ⟨a, ha, (hchar a).mpr hbad⟩
    rcases hf : plan.actions.find? (fun x => !(allowedTypes.contains x.type)) with _ | b
    · rw [hf] at hsome; simp at hsome
    · refine ⟨"Unsupported action type: " ++ b.type, ?_⟩
      unfold runExecutor preflight
      rw [happly, hf]
      rfl

/-- Witness for preflight_allowed_types_characterization: for a plan holding
one no-op action and an executor invocation with every consent flag set,
the run aborts with an error and an empty event trace. -/
theorem preflight_allowed_types_witness :
    ∃ msg, runExecutor ⟨true, true, true, true, true⟩ (fun _ => false) (fun _ => Except.ok ())
      ⟨true, [⟨"no-op", "c1"⟩]⟩ = (Except.error msg, []) :=
  (preflight_allowed_types_characterization ⟨true, [⟨"no-op", "c1"⟩]⟩
    ⟨true, true, true, true, true⟩ (fun _ => false) (fun _ => Except.ok ()) rfl).2
    ⟨"no-op", "c1"⟩ (by decide) (by decide)

/-- C9: the rollback plan builder emits update-container-ports actions whose
from field is a bare host number (or null), not a PortBinding list, so every
such action fails the reqArray validation of the update-container-ports
handler even though it passes the type preflight: a rollback plan is not
accepted by the executor mutation path, contradicting the declared Plan
shape and the modules own executor-compatibility rule. -/
theorem rollback_plan_rejected_by_handler :
    (buildRollbackPlan preSnapOne postSnapOne (some ["c1"])).actions =
      [⟨"update-container-ports", "c1", "tcp", some 5000, some 8080⟩] ∧
    ((buildRollbackPlan preSnapOne postSnapOne (some ["c1"])).actions.all
      (fun a => reqArrayOk (rollbackFromJson a) == false)) = true ∧
    preflight ⟨true, [⟨"update-container-ports", "c1"⟩]⟩ = Except.ok () :=
  ⟨by decide, by decide, rfl⟩

/-- C6: for an update-container-ports action executed without dry-run, if
the actually published bindings of the runtime differ from the action from
list by even one entry (the normalized key sets differ), the handler fails
and issues no stop, remove, create, network-connect or start call. -/
theorem update_ports_preflight_mismatch_aborts (action : UpdateAction)
    (docker : DockerContainerState)
    (h : samePortList docker.published action.fromPorts = false) :
    (∃ msg, (updateContainerPorts action docker false).1 = Except.error msg) ∧
    (updateContainerPorts action docker false).2 = [] := by
  have key : (match (updateContainerPorts action docker false).1 with
      | Except.error _ => true
      | Except.ok _ => false) = true ∧
      (updateContainerPorts action docker false).2 = [] := by
    unfold updateContainerPorts
    split_ifs <;>
      first
        | exact ⟨rfl, rfl⟩
        | (exfalso; simp_all)
  rcases hres : (updateContainerPorts action docker false).1 with e | v
  · exact ⟨⟨e, rfl⟩, key.2⟩
  · rw [hres] at key
    exact absurd key.1 (by simp)

/-- Witness for update_ports_preflight_mismatch_aborts: published host 9090
against planned from host 8080. -/
theorem update_ports_preflight_mismatch_witness :
    samePortList mismatchDocker.published mismatchAction.fromPorts = false ∧
    ((∃ msg, (updateContainerPorts mismatchAction mismatchDocker false).1 = Except.error msg) ∧
     (updateContainerPorts mismatchAction mismatchDocker false).2 = []) :=
  ⟨by decide, update_ports_preflight_mismatch_aborts mismatchAction mismatchDocker (by decide)⟩

theorem hasUdpPorts_not_tcpOnly (c : Container) (h : hasUdpPorts c = true) :
    hasTcpOnlyPorts c = false := by
  unfold hasUdpPorts at h
  unfold hasTcpOnlyPorts
  rcases List.any_eq_true.mp h with ⟨p, hp, hpe⟩
  have hu : jsNorm p.protocol = "udp" := by simpa using hpe
  have hall : c.ports.all (fun q => jsNorm q.protocol == "tcp") = false := by
    apply List.all_eq_false.mpr
    exact ⟨p, hp, by simp [hu]⟩
  simp [hall]

/-- Evaluation of the per-container decision chain on an entry whose
effective category is neither empty, unknown, games nor system-relevant,
but whose used confidence is below 0.9: the low-confidence manual-review
action. -/
theorem actionFor_low_confidence (st : Option PState) (ov : List (String × OverrideVal))
    (enf : List (String × Bool)) (asg : List (String × List PortBinding))
    (name cat : String) (conf : ℚ)
    (hov : overrideCategoryField ov name = none)
    (hne : ¬(cat = "" ∨ cat = "unknown"))
    (hlow : decide (conf < mkRat 9 10) = true) :
    actionForContainer st ov enf asg ⟨name, cat, some conf⟩ =
      ⟨"manual-review", name, false, none, none,
        ⟨"low-confidence-classification", "blocking", false,
         "Classifier confidence below safe threshold", some conf⟩⟩ := by
  unfold actionForContainer
  dsimp only
  rw [hov]
  simp only [Option.getD_none, Option.isSome_none, Bool.false_eq_true, if_false]
  rw [if_neg hne]
  rw [if_pos (show lowConfidence (some conf) = true by unfold lowConfidence; exact hlow)]

/-- C3 counterexample: for the container mc-server with image containing
minecraft, one UDP port and no other scoring signal, the classifier does
return games with confidence 0.8, but buildPlan emits a manual-review
action (confidence 0.8 falls below the 0.9 threshold, which is checked
before the games rule), not the claimed review-game-ports action, even with
enforcement intent set. -/
theorem minecraft_scenario_counterexample :
    (classifyContainer mcContainer []).category = "games" ∧
    (classifyContainer mcContainer []).confidence = mkRat 4 5 ∧
    ((buildPlan 0 [toPlanInput (classifyContainer mcContainer [])] none []
        [("mc-server", true)]).actions.map PlanAction.type) = ["manual-review"] ∧
    ("manual-review" : String) ≠ "review-game-ports" := by
  refine ⟨by decide, by decide, by decide, by decide⟩

/-- C3 amended: for every container without a category override whose image
contains minecraft, with at least one UDP port and no other scoring signal
(no system or app keyword hit, no host port at 20000 or above), classify
assigns games with confidence 0.8, and buildPlan — for every state, override
table and enforcement intent — emits for that container one manual-review
action with executable=false under the low-confidence-classification policy,
because 0.8 is below the 0.9 confidence gate that precedes the games rule. -/
theorem minecraft_udp_scenario_manual_review
    (c : Container) (ov : List (String × OverrideVal)) (now : Nat) (st : Option PState)
    (bov : List (String × OverrideVal)) (enf : List (String × Bool))
    (hov : getOverrideCategory ov c.name = none)
    (hbov : overrideCategoryField bov c.name = none)
    (hmc : strContains (jsNorm c.image) "minecraft" = true)
    (hsys : systemKeywordHit c = false)
    (happ : appKeywordHit c = false)
    (hudp : hasUdpPorts c = true)
    (hrange : gamePortSignal c = false) :
    (classifyContainer c ov).category = "games" ∧
    (classifyContainer c ov).confidence = mkRat 4 5 ∧
    (buildPlan now [toPlanInput (classifyContainer c ov)] st bov enf).actions =
      [⟨"manual-review", c.name, false, none, none,
        ⟨"low-confidence-classification", "blocking", false,
         "Classifier confidence below safe threshold", some (mkRat 4 5)⟩⟩] := by
  have hgame : gameKeywordHit c = true := by
    unfold gameKeywordHit containsAny
    rw [Bool.or_eq_true]
    right
    apply List.any_eq_true.mpr
    exact ⟨"minecraft", by decide, hmc⟩
  have hg : gamesScore c = 4 := by
    unfold gamesScore
    rw [hgame, hudp, hrange]
    decide
  have hs : systemScore c = 0 := by
    unfold systemScore
    rw [hsys]
    decide
  have ha : appsScore c = 0 := by
    unfold appsScore
    rw [happ, hasUdpPorts_not_tcpOnly c hudp]
    decide
  have hcls : classifyContainer c ov =
      ⟨c.id, c.name, c.image, "games", mkRat 4 5, classifyReasons c, []⟩ := by
    unfold classifyContainer
    rw [hov, hs, ha, hg]
    rw [show sortDecision 0 0 4 = ("games", mkRat 4 5) from by decide]
  refine ⟨by rw [hcls], by rw [hcls], ?_⟩
  rw [hcls]
  unfold buildPlan toPlanInput
  dsimp only
  simp only [List.filter_cons, List.filter_nil]
  rw [show ((if ("games" : String) = "" then "unknown" else "games") == "apps") = false
    from by decide]
  simp only [Bool.false_and, Bool.false_eq_true, if_false, List.length_nil,
    List.map_cons, List.map_nil]
  rw [show (decide ((0 : Nat) > 0)) = false from by decide]
  simp only [Bool.false_and, Bool.false_eq_true, if_false]
  rw [actionFor_low_confidence st bov enf [] c.name "games" (mkRat 4 5) hbov
    (by decide) (by decide)]

/-- Witness for minecraft_udp_scenario_manual_review at the concrete
mc-server container. -/
theorem minecraft_manual_review_witness :
    (strContains (jsNorm mcContainer.image) "minecraft" = true ∧
     hasUdpPorts mcContainer = true) ∧
    ((classifyContainer mcContainer []).category = "games" ∧
     (classifyContainer mcContainer []).confidence = mkRat 4 5 ∧
     (buildPlan 7 [toPlanInput (classifyContainer mcContainer [])] none [] []).actions =
       [⟨"manual-review", mcContainer.name, false, none, none,
         ⟨"low-confidence-classification", "blocking", false,
          "Classifier confidence below safe threshold", some (mkRat 4 5)⟩⟩]) :=
  ⟨⟨by decide, by decide⟩,
   minecraft_udp_scenario_manual_review mcContainer [] 7 none [] [] rfl rfl
     (by decide) (by decide) (by decide) (by decide) (by decide)⟩

/-- Evaluation of the per-container decision chain: an action with
executable=true can only arise in the apps branch with a running container
and a layout assignment, so its type, effective category and runtime state
are pinned down. -/
theorem actionFor_executable (st : Option PState) (ov : List (String × OverrideVal))
    (enf : List (String × Bool)) (asg : List (String × List PortBinding))
    (c : ClassifiedContainer)
    (h : (actionForContainer st ov enf asg c).executable = true) :
    (actionForContainer st ov enf asg c).type = "update-container-ports" ∧
    (actionForContainer st ov enf asg c).container = c.name ∧
    (overrideCategoryField ov c.name).getD c.category = "apps" ∧
    ∃ rc, containerOf st c.name = some rc ∧ rc.running = true := by
  unfold actionForContainer at h ⊢
  dsimp only at h ⊢
  by_cases h1 : ((overrideCategoryField ov c.name).getD c.category = "" ∨
      (overrideCategoryField ov c.name).getD c.category = "unknown")
  · rw [if_pos h1] at h; simp at h
  rw [if_neg h1] at h ⊢
  by_cases h2 : lowConfidence
      (if (overrideCategoryField ov c.name).isSome = true then some 1 else c.confidence) = true
  · rw [if_pos h2] at h; simp at h
  rw [if_neg h2] at h ⊢
  by_cases h3 : (overrideCategoryField ov c.name).getD c.category = "games"
  · rw [if_pos h3] at h; simp at h
  rw [if_neg h3] at h ⊢
  by_cases h4 : (overrideCategoryField ov c.name).getD c.category = "system"
  · rw [if_pos h4] at h; simp at h
  rw [if_neg h4] at h ⊢
  rcases hpp : (getPoliciesForCategory ((overrideCategoryField ov c.name).getD c.category)).head?
    with _ | pp
  · rw [hpp] at h; simp at h
  rw [hpp] at h
  cases hd : decide ((overrideCategoryField ov c.name).getD c.category = "apps")
  · rw [hd] at h; simp at h
  rw [hd] at h
  dsimp only at h ⊢
  by_cases h5 : (pp.enforceable && enforcedFor enf c.name
      && (Option.map Container.running (containerOf st c.name)).getD false
      && (List.lookup c.name asg).isSome) = true
  · rw [if_pos h5] at h ⊢
    by_cases h6 : portsChanged (portsOf st c.name) ((List.lookup c.name asg).getD []) = true
    · rw [if_pos h6] at h ⊢
      have hrun : (Option.map Container.running (containerOf st c.name)).getD false = true := by
        have hl := h5
        rw [Bool.and_eq_true, Bool.and_eq_true] at hl
        exact hl.1.2
      rcases hco : containerOf st c.name with _ | rc
      · rw [hco] at hrun; simp at hrun
      · rw [hco] at hrun
        simp at hrun
        exact ⟨rfl, rfl, of_decide_eq_true hd, rc, rfl, hrun⟩
    · rw [if_neg h6] at h; simp at h
  · rw [if_neg h5] at h
    by_cases h7 : (pp.enforceable && enforcedFor enf c.name
        && !(Option.map Container.running (containerOf st c.name)).getD false) = true
    · rw [if_pos h7] at h; simp at h
    · rw [if_neg h7] at h; simp at h

/-- C5: every action with executable=true in a buildPlan result is an
update-container-ports action whose classification entry has effective
category apps (override considered) and whose container was marked running
in the supplied state; containers with effective category system, games or
unknown never receive an executable action. -/
theorem executable_actions_apps_running_only (now : Nat) (cls : List ClassifiedContainer)
    (st : Option PState) (ov : List (String × OverrideVal)) (enf : List (String × Bool))
    (a : PlanAction) (ha : a ∈ (buildPlan now cls st ov enf).actions)
    (hex : a.executable = true) :
    a.type = "update-container-ports" ∧
    ∃ c ∈ cls, a.container = c.name ∧
      (overrideCategoryField ov c.name).getD c.category = "apps" ∧
      ∃ rc, containerOf st c.name = some rc ∧ rc.running = true := by
  unfold buildPlan at ha
  dsimp only at ha
  rcases List.mem_map.mp ha with ⟨c, hc, hac⟩
  have h := actionFor_executable st ov enf _ c (by rw [hac]; exact hex)
  exact ⟨by rw [← hac]; exact h.1, c, hc, by rw [← hac]; exact h.2.1, h.2.2.1, h.2.2.2⟩

/-- Witness for executable_actions_apps_running_only at the web1 scenario
plan. -/
theorem executable_actions_witness :
    web1UpdateAction.type = "update-container-ports" ∧
    ∃ c ∈ [web1Classified], web1UpdateAction.container = c.name ∧
      (overrideCategoryField [] c.name).getD c.category = "apps" ∧
      ∃ rc, containerOf (some web1State) c.name = some rc ∧ rc.running = true :=
  executable_actions_apps_running_only 0 [web1Classified] (some web1State) []
    [("web1", true)] web1UpdateAction (by decide) (by decide)

theorem layoutFold_eq_claimLayout (pm : String → List PortBinding) :
    ∀ (l : List ClassifiedContainer) (acc : List (String × List PortBinding)) (n : Nat),
      (∀ c ∈ l, acc.any (fun e => e.1 == c.name) = false) →
      ((l.map ClassifiedContainer.name).Nodup) →
      (layoutFold pm l (acc, n)).1 = acc ++ claimLayout pm l n := by
  intro l
  induction l with
  | nil =>
    intro acc n _ _
    simp [layoutFold, claimLayout]
  | cons c rest ih =>
    intro acc n hfresh hnodup
    have hfr : acc.any (fun e => e.1 == c.name) = false := hfresh c (List.mem_cons_self c rest)
    have hnd : (rest.map ClassifiedContainer.name).Nodup :=
      (List.nodup_cons.mp (by simpa using hnodup)).2
    have hcnotin : c.name ∉ rest.map ClassifiedContainer.name :=
      (List.nodup_cons.mp (by simpa using hnodup)).1
    have hfreshRest : ∀ d ∈ rest,
        (acc ++ [(c.name, assignHosts n ((pm c.name).filter (fun p => p.protocol == "tcp"))
          ++ (pm c.name).filter (fun p => p.protocol == "udp"))]).any
          (fun e => e.1 == d.name) = false := by
      intro d hd
      rw [List.any_append]
      rw [hfresh d (List.mem_cons_of_mem c hd)]
      simp only [Bool.false_or, List.any_cons, List.any_nil, Bool.or_false]
      apply beq_eq_false_iff_ne.mpr
      intro hc
      exact hcnotin (hc ▸ List.mem_map_of_mem ClassifiedContainer.name hd)
    unfold layoutFold claimLayout
    dsimp only
    by_cases hlen : (assignHosts n ((pm c.name).filter (fun p => p.protocol == "tcp"))
        ++ (pm c.name).filter (fun p => p.protocol == "udp")).length > 0
    · rw [if_pos hlen, if_pos hlen, mapSet_fresh acc c.name _ hfr]
      rw [ih _ _ hfreshRest hnd]
      rw [List.append_assoc]
    · rw [if_neg hlen, if_neg hlen]
      rw [ih _ _ (fun d hd => hfresh d (List.mem_cons_of_mem c hd)) hnd]
      rw [List.nil_append]

theorem generateIncrementalLayout_eq_claim (cs : List ClassifiedContainer)
    (pm : String → List PortBinding) (startPort : Nat)
    (h : (cs.map ClassifiedContainer.name).Nodup) :
    generateIncrementalLayout cs pm startPort =
      claimLayout pm (List.insertionSort (fun x y => x.name ≤ y.name) cs) startPort := by
  unfold generateIncrementalLayout
  rw [layoutFold_eq_claimLayout pm _ [] startPort (by intro c _; rfl) ?_]
  · rw [List.nil_append]
  · have hperm : List.Perm
        ((List.insertionSort (fun x y => x.name ≤ y.name) cs).map ClassifiedContainer.name)
        (cs.map ClassifiedContainer.name) :=
      (List.perm_insertionSort _ cs).map _
    exact hperm.nodup_iff.mpr h

/-- C7: the incremental layout walks the opted-in containers sorted by name
with one shared counter starting at the given port, assigning each TCP port
the next counter value while preserving container-side ports and leaving
UDP ports untouched (proved as equality with the specification-level layout
claimLayout, for any duplicate-free container set); and in the web1 scenario
(sole opted-in running apps container with confidence 0.95 and current TCP
binding 8080 to 80) buildPlan emits exactly one update-container-ports
action from host 8080 to host 5000. -/
theorem incremental_layout_characterization :
    (∀ (cs : List ClassifiedContainer) (pm : String → List PortBinding) (startPort : Nat),
      (cs.map ClassifiedContainer.name).Nodup →
      generateIncrementalLayout cs pm startPort =
        claimLayout pm (List.insertionSort (fun x y => x.name ≤ y.name) cs) startPort) ∧
    (buildPlan 0 [web1Classified] (some web1State) [] [("web1", true)]).actions =
      [web1UpdateAction] :=
  ⟨fun cs pm sp h => generateIncrementalLayout_eq_claim cs pm sp h, by decide⟩

/-- Witness for incremental_layout_characterization: two opted-in containers
named b and a; sorted as a then b, container a takes hosts 5000 (tcp 80,
udp untouched) and b takes 5001. -/
theorem incremental_layout_witness :
    (([⟨"b", "apps", none⟩, ⟨"a", "apps", none⟩] : List ClassifiedContainer).map
      ClassifiedContainer.name).Nodup ∧
    generateIncrementalLayout [⟨"b", "apps", none⟩, ⟨"a", "apps", none⟩] layoutPm 5000 =
      claimLayout layoutPm
        (List.insertionSort (fun x y => x.name ≤ y.name)
          [⟨"b", "apps", none⟩, ⟨"a", "apps", none⟩]) 5000 :=
  ⟨by decide, incremental_layout_characterization.1
    [⟨"b", "apps", none⟩, ⟨"a", "apps", none⟩] layoutPm 5000 (by decide)⟩

theorem buildSnapMap_eq (allowed : List String) :
    ∀ (l : List SnapPort) (acc : List (String × SnapPort)),
      ((acc.map Prod.fst) ++ (selectPorts l allowed).map snapKey).Nodup →
      l.foldl (fun m p => if allowed.contains p.container then mapSet m (snapKey p) p else m) acc
        = acc ++ (selectPorts l allowed).map (fun p => (snapKey p, p)) := by
  intro l
  induction l with
  | nil =>
    intro acc _
    simp [selectPorts]
  | cons p rest ih =>
    intro acc hnd
    by_cases hin : allowed.contains p.container = true
    · have hsel : selectPorts (p :: rest) allowed = p :: selectPorts rest allowed := by
        unfold selectPorts
        rw [List.filter_cons, if_pos hin]
      rw [hsel, List.map_cons] at hnd
      have hkey : snapKey p ∉ acc.map Prod.fst := by
        intro hmem
        rcases List.nodup_append.mp hnd with ⟨_, _, hdisj⟩
        exact hdisj hmem (List.mem_cons_self _ _)
      have hfr : acc.any (fun e => e.1 == snapKey p) = false := by
        apply List.any_eq_false.mpr
        intro e he
        simp only [beq_iff_eq]
        intro hEq
        exact hkey (hEq ▸ List.mem_map_of_mem Prod.fst he)
      rw [List.foldl_cons, if_pos hin, mapSet_fresh acc (snapKey p) p hfr]
      rw [ih (acc ++ [(snapKey p, p)]) ?_]
      · rw [hsel, List.map_cons, List.append_assoc]
        rfl
      · rw [List.map_append, List.append_assoc]
        simpa using hnd
    · have hsel : selectPorts (p :: rest) allowed = selectPorts rest allowed := by
        unfold selectPorts
        rw [List.filter_cons, if_neg hin]
      rw [hsel] at hnd
      rw [List.foldl_cons, if_neg hin]
      rw [ih acc hnd, hsel]

theorem lookup_map_pair_eq_find (l : List SnapPort) (k : String) :
    (l.map (fun p => (snapKey p, p))).lookup k = l.find? (fun p => snapKey p == k) := by
  induction l with
  | nil => rfl
  | cons p rest ih =>
    by_cases hk : snapKey p = k
    · have h1 : (k == snapKey p) = true := beq_iff_eq.mpr hk.symm
      have h2 : (snapKey p == k) = true := beq_iff_eq.mpr hk
      simp [List.lookup, List.find?, h1, h2]
    · have h1 : (k == snapKey p) = false := beq_eq_false_iff_ne.mpr (fun h => hk h.symm)
      have h2 : (snapKey p == k) = false := beq_eq_false_iff_ne.mpr hk
      simp [List.lookup, List.find?, h1, h2, ih]

theorem find?_isSome_eq_any (l : List SnapPort) (p : SnapPort → Bool) :
    (l.find? p).isSome = l.any p := by
  induction l with
  | nil => rfl
  | cons x rest ih =>
    cases hx : p x
    · simp [List.find?_cons, List.any_cons, hx, ih]
    · simp [List.find?_cons, List.any_cons, hx]

theorem filterMap_ite_eq_filter_map {α β : Type} (l : List α) (p : α → Bool) (f : α → β) :
    l.filterMap (fun x => if p x then none else some (f x)) =
      (l.filter (fun x => !(p x))).map f := by
  induction l with
  | nil => rfl
  | cons x rest ih =>
    cases hx : p x <;> simp [List.filterMap_cons, List.filter_cons, hx, ih]

/-- C1 counterexample: with selectedContainers unset the allowed set is
empty (new Set(selectedContainers or [])), so the rollback plan is empty
even when the snapshots differ; the claim requires an action for the
pre-only key of container c1 (visible as the nonempty cover over all
containers). -/
theorem buildRollbackPlan_unset_counterexample :
    (buildRollbackPlan preSnapOne [] none).actions = [] ∧
    claimRollbackActions preSnapOne [] =
      [⟨"update-container-ports", "c1", "tcp", none, some 8080⟩] :=
  ⟨by decide, by decide⟩

/-- C1 amended: for every pair of snapshots and every selection, the actions
of buildRollbackPlan cover exactly the symmetric-difference-with-changes of
the two snapshots restricted to the selection, where an unset selection is
the empty selection (not all containers): one action with to=null per key
only in postPorts, one with from=null and to=preHost per key only in
prePorts, one with from=postHost and to=preHost per key in both with
differing hosts, and none for unchanged keys — stated as equality with the
specification-level action list claimRollbackActions over the restricted
snapshots, assuming the restricted snapshots have duplicate-free keys. -/
theorem buildRollbackPlan_selected_symdiff (pre post : List SnapPort)
    (sel : Option (List String))
    (hpre : ((selectPorts pre (sel.getD [])).map snapKey).Nodup)
    (hpost : ((selectPorts post (sel.getD [])).map snapKey).Nodup) :
    (buildRollbackPlan pre post sel).actions =
      claimRollbackActions (selectPorts pre (sel.getD []))
        (selectPorts post (sel.getD [])) := by
  unfold buildRollbackPlan buildSnapMap
  dsimp only
  rw [buildSnapMap_eq (sel.getD []) pre [] (by simpa using hpre),
      buildSnapMap_eq (sel.getD []) post [] (by simpa using hpost)]
  simp only [List.nil_append]
  rw [List.filterMap_map, List.filterMap_map]
  simp only [Function.comp_def, lookup_map_pair_eq_find, find?_isSome_eq_any]
  unfold claimRollbackActions
  rw [filterMap_ite_eq_filter_map]

/-- Witness for buildRollbackPlan_selected_symdiff: one changed tcp binding
and one removed udp binding for the selected container c1. -/
theorem buildRollbackPlan_selected_symdiff_witness :
    ((selectPorts preSnapTwo ((some ["c1"]).getD [])).map snapKey).Nodup ∧
    ((selectPorts postSnapTwo ((some ["c1"]).getD [])).map snapKey).Nodup ∧
    (buildRollbackPlan preSnapTwo postSnapTwo (some ["c1"])).actions =
      claimRollbackActions (selectPorts preSnapTwo ((some ["c1"]).getD []))
        (selectPorts postSnapTwo ((some ["c1"]).getD [])) :=
  ⟨by decide, by decide,
   buildRollbackPlan_selected_symdiff preSnapTwo postSnapTwo (some ["c1"])
     (by decide) (by decide)⟩

theorem mem_mapSet {α : Type} (m : List (String × α)) (k : String) (v : α)
    (x : String × α) (hx : x ∈ mapSet m k v) : x ∈ m ∨ x = (k, v) := by
  unfold mapSet at hx
  by_cases hany : m.any (fun e => e.1 == k) = true
  · rw [if_pos hany] at hx
    rcases List.mem_map.mp hx with ⟨y, hy, hxy⟩
    by_cases hyk : y.1 == k
    · right
      rw [if_pos hyk] at hxy
      exact hxy.symm
    · left
      rw [if_neg hyk] at hxy
      exact hxy ▸ hy
  · rw [if_neg hany] at hx
    rcases List.mem_append.mp hx with h | h
    · exact Or.inl h
    · right
      simpa using h

theorem restoreMapOf_mem (ports : List SnapPort) (selected : Option (List String)) :
    ∀ e ∈ restoreMapOf ports selected,
      e.2 ∈ ports ∧ shouldInclude selected e.2.container = true := by
  unfold restoreMapOf
  suffices hgen : ∀ (l : List SnapPort) (acc : List (String × SnapPort)),
      (∀ e ∈ acc, e.2 ∈ ports ∧ shouldInclude selected e.2.container = true) →
      (∀ p ∈ l, p ∈ ports) →
      ∀ e ∈ l.foldl (fun m p =>
          if shouldInclude selected p.container then mapSet m (restoreKey p) p else m) acc,
        e.2 ∈ ports ∧ shouldInclude selected e.2.container = true by
    exact hgen ports [] (by intro e he; cases he) (fun p hp => hp)
  intro l
  induction l with
  | nil =>
    intro acc hacc _ e he
    exact hacc e he
  | cons p rest ih =>
    intro acc hacc hsub e he
    rw [List.foldl_cons] at he
    by_cases hinc : shouldInclude selected p.container = true
    · rw [if_pos hinc] at he
      refine ih (mapSet acc (restoreKey p) p) ?_ (fun q hq => hsub q (List.mem_cons_of_mem p hq)) e he
      intro d hd
      rcases mem_mapSet acc (restoreKey p) p d hd with h | h
      · exact hacc d h
      · rw [h]
        exact ⟨hsub p (List.mem_cons_self p rest), hinc⟩
    · rw [if_neg hinc] at he
      exact ih acc hacc (fun q hq => hsub q (List.mem_cons_of_mem p hq)) e he

theorem addEntry_pres (R S : String → PortBinding → Prop)
    (bc : List (String × RestoreGroup)) (c : String) (fv : Option PortBinding)
    (tv : PortBinding)
    (hbc : ∀ x ∈ bc, (∀ b ∈ x.2.toL, R x.1 b) ∧
      (∀ ob ∈ x.2.fromL, ∀ b, ob = some b → S x.1 b))
    (htv : R c tv) (hfv : ∀ b, fv = some b → S c b) :
    ∀ x ∈ addEntry bc c fv tv,
      (∀ b ∈ x.2.toL, R x.1 b) ∧
      (∀ ob ∈ x.2.fromL, ∀ b, ob = some b → S x.1 b) := by
  intro x hx
  unfold addEntry at hx
  by_cases hany : bc.any (fun e => e.1 == c) = true
  · rw [if_pos hany] at hx
    rcases List.mem_map.mp hx with ⟨y, hy, hxy⟩
    by_cases hyk : (y.1 == c) = true
    · rw [if_pos hyk] at hxy
      have hyc : y.1 = c := beq_iff_eq.mp hyk
      subst hxy
      constructor
      · intro b hb
        rcases List.mem_append.mp hb with h | h
        · exact hyc ▸ (hbc y hy).1 b h
        · have hbt : b = tv := by simpa using h
          rw [hbt]
          exact htv
      · intro ob hob b hobb
        rcases List.mem_append.mp hob with h | h
        · exact hyc ▸ (hbc y hy).2 ob h b hobb
        · have hof : ob = fv := by simpa using h
          exact hfv b (hof ▸ hobb)
    · rw [if_neg hyk] at hxy
      exact hxy ▸ hbc y hy
  · rw [if_neg hany] at hx
    rcases List.mem_append.mp hx with h | h
    · exact hbc x h
    · have hx2 : x = (c, ⟨[fv], [tv]⟩) := by simpa using h
      subst hx2
      constructor
      · intro b hb
        have hbt : b = tv := by simpa using hb
        rw [hbt]
        exact htv
      · intro ob hob b hobb
        have hof : ob = fv := by simpa using hob
        exact hfv b (hof ▸ hobb)

theorem byContainerOf_inv (preP : List SnapPort) (selected : Option (List String))
    (postM : List (String × SnapPort)) :
    ∀ x ∈ byContainerOf (restoreMapOf preP selected) postM,
      (∀ b ∈ x.2.toL, ∃ p ∈ preP, shouldInclude selected p.container = true ∧
        p.container = x.1 ∧ b = (⟨p.host, p.containerPort, p.protocol⟩ : PortBinding)) ∧
      (∀ ob ∈ x.2.fromL, ∀ b, ob = some b → ∃ p ∈ preP,
        shouldInclude selected p.container = true ∧ p.container = x.1 ∧
        b.containerPort = p.containerPort ∧ b.protocol = p.protocol) := by
  unfold byContainerOf
  suffices hgen : ∀ (l : List (String × SnapPort)) (bc : List (String × RestoreGroup)),
      (∀ e ∈ l, e.2 ∈ preP ∧ shouldInclude selected e.2.container = true) →
      (∀ x ∈ bc,
        (∀ b ∈ x.2.toL, ∃ p ∈ preP, shouldInclude selected p.container = true ∧
          p.container = x.1 ∧ b = (⟨p.host, p.containerPort, p.protocol⟩ : PortBinding)) ∧
        (∀ ob ∈ x.2.fromL, ∀ b, ob = some b → ∃ p ∈ preP,
          shouldInclude selected p.container = true ∧ p.container = x.1 ∧
          b.containerPort = p.containerPort ∧ b.protocol = p.protocol)) →
      ∀ x ∈ l.foldl (fun bc e =>
          match postM.lookup e.1 with
          | some post =>
            addEntry bc e.2.container (some ⟨post.host, e.2.containerPort, e.2.protocol⟩)
              ⟨e.2.host, e.2.containerPort, e.2.protocol⟩
          | none => addEntry bc e.2.container none ⟨e.2.host, e.2.containerPort, e.2.protocol⟩) bc,
        (∀ b ∈ x.2.toL, ∃ p ∈ preP, shouldInclude selected p.container = true ∧
          p.container = x.1 ∧ b = (⟨p.host, p.containerPort, p.protocol⟩ : PortBinding)) ∧
        (∀ ob ∈ x.2.fromL, ∀ b, ob = some b → ∃ p ∈ preP,
          shouldInclude selected p.container = true ∧ p.container = x.1 ∧
          b.containerPort = p.containerPort ∧ b.protocol = p.protocol) by
    exact hgen (restoreMapOf preP selected) [] (restoreMapOf_mem preP selected)
      (by intro x hx; cases hx)
  intro l
  induction l with
  | nil =>
    intro bc _ hbc x hx
    exact hbc x hx
  | cons e rest ih =>
    intro bc hl hbc x hx
    rw [List.foldl_cons] at hx
    have he := hl e (List.mem_cons_self e rest)
    have hrest : ∀ d ∈ rest, d.2 ∈ preP ∧ shouldInclude selected d.2.container = true :=
      fun d hd => hl d (List.mem_cons_of_mem e hd)
    rcases hlk : postM.lookup e.1 with _ | post
    · rw [hlk] at hx
      dsimp only at hx
      refine ih _ hrest ?_ x hx
      apply addEntry_pres
        (fun n b => ∃ p ∈ preP, shouldInclude selected p.container = true ∧
          p.container = n ∧ b = (⟨p.host, p.containerPort, p.protocol⟩ : PortBinding))
        (fun n b => ∃ p ∈ preP, shouldInclude selected p.container = true ∧
          p.container = n ∧ b.containerPort = p.containerPort ∧ b.protocol = p.protocol)
        bc e.2.container none ⟨e.2.host, e.2.containerPort, e.2.protocol⟩ hbc
      · exact ⟨e.2, he.1, he.2, rfl, rfl⟩
      · intro b hb
        cases hb
    · rw [hlk] at hx
      dsimp only at hx
      refine ih _ hrest ?_ x hx
      apply addEntry_pres
        (fun n b => ∃ p ∈ preP, shouldInclude selected p.container = true ∧
          p.container = n ∧ b = (⟨p.host, p.containerPort, p.protocol⟩ : PortBinding))
        (fun n b => ∃ p ∈ preP, shouldInclude selected p.container = true ∧
          p.container = n ∧ b.containerPort = p.containerPort ∧ b.protocol = p.protocol)
        bc e.2.container
        (some ⟨post.host, e.2.containerPort, e.2.protocol⟩)
        ⟨e.2.host, e.2.containerPort, e.2.protocol⟩ hbc
      · exact ⟨e.2, he.1, he.2, rfl, rfl⟩
      · intro b hb
        cases hb
        exact ⟨e.2, he.1, he.2, rfl, rfl, rfl⟩

/-- C10: createRestorePlan emits restore entries only for keys present in
the snapshot pre-state: every action targets a container with at least one
included pre-state binding, every to binding is exactly one included
pre-state binding of that container, and every from binding carries the
(container, protocol, containerPort) key of an included pre-state binding —
so a key present only in the post-state contributes nothing, and a container
with no pre-state ports receives no action at all. -/
theorem restore_plan_pre_keys_only (preP postP : List SnapPort)
    (selected : Option (List String)) (jobId : String) (finishedAt : Nat)
    (a : RestoreAction)
    (ha : a ∈ (createRestorePlan preP postP selected jobId finishedAt).actions) :
    (∃ p ∈ preP, shouldInclude selected p.container = true ∧ p.container = a.container) ∧
    (∀ b ∈ a.toPorts, ∃ p ∈ preP, shouldInclude selected p.container = true ∧
      p.container = a.container ∧ b = (⟨p.host, p.containerPort, p.protocol⟩ : PortBinding)) ∧
    (∀ b ∈ a.fromPorts, ∃ p ∈ preP, shouldInclude selected p.container = true ∧
      p.container = a.container ∧ b.containerPort = p.containerPort ∧
      b.protocol = p.protocol) := by
  unfold createRestorePlan at ha
  dsimp only at ha
  rcases List.mem_filterMap.mp ha with ⟨x, hx, hxa⟩
  by_cases hemp : x.2.toL.isEmpty = true
  · rw [if_pos hemp] at hxa
    cases hxa
  rw [if_neg hemp] at hxa
  have hax : a = ⟨"update-container-ports", x.1, x.2.fromL.filterMap id, x.2.toL,
      "Restore from snapshot " ++ jobId⟩ := (Option.some.inj hxa).symm
  have hinv := byContainerOf_inv preP selected (restoreMapOf postP selected) x hx
  have htoAll : ∀ b ∈ a.toPorts, ∃ p ∈ preP, shouldInclude selected p.container = true ∧
      p.container = a.container ∧ b = (⟨p.host, p.containerPort, p.protocol⟩ : PortBinding) := by
    intro b hb
    rw [hax] at hb
    rcases hinv.1 b hb with ⟨p, hp, hip, hcp, hbp⟩
    exact ⟨p, hp, hip, by rw [hax]; exact hcp, hbp⟩
  refine ⟨?_, htoAll, ?_⟩
  · rcases htl : x.2.toL with _ | ⟨b, btl⟩
    · rw [htl] at hemp
      simp at hemp
    · have hb : b ∈ a.toPorts := by
        rw [hax]
        dsimp only
        rw [htl]
        exact List.mem_cons_self b btl
      rcases htoAll b hb with ⟨p, hp, hip, hcp, _⟩
      exact ⟨p, hp, hip, hcp⟩
  · intro b hb
    rw [hax] at hb
    dsimp only at hb
    rcases List.mem_filterMap.mp hb with ⟨ob, hob, hobb⟩
    rcases hinv.2 ob hob b hobb with ⟨p, hp, hip, hcp, hbp, hbq⟩
    exact ⟨p, hp, hip, by rw [hax]; exact hcp, hbp, hbq⟩

/-- Witness for restore_plan_pre_keys_only: the single action restoring c1
tcp 80 from post host 5000 back to pre host 8080. -/
theorem restore_plan_pre_keys_witness :
    (⟨"update-container-ports", "c1", [⟨5000, 80, "tcp"⟩], [⟨8080, 80, "tcp"⟩],
      "Restore from snapshot j1"⟩ : RestoreAction) ∈
      (createRestorePlan preSnapOne postSnapOne none "j1" 0).actions ∧
    ((∃ p ∈ preSnapOne, shouldInclude none p.container = true ∧ p.container = "c1") ∧
     (∀ b ∈ ([⟨8080, 80, "tcp"⟩] : List PortBinding), ∃ p ∈ preSnapOne,
       shouldInclude none p.container = true ∧ p.container = "c1" ∧
       b = (⟨p.host, p.containerPort, p.protocol⟩ : PortBinding)) ∧
     (∀ b ∈ ([⟨5000, 80, "tcp"⟩] : List PortBinding), ∃ p ∈ preSnapOne,
       shouldInclude none p.container = true ∧ p.container = "c1" ∧
       b.containerPort = p.containerPort ∧ b.protocol = p.protocol)) :=
  ⟨by decide, restore_plan_pre_keys_only preSnapOne postSnapOne none "j1" 0
    ⟨"update-container-ports", "c1", [⟨5000, 80, "tcp"⟩], [⟨8080, 80, "tcp"⟩],
      "Restore from snapshot j1"⟩ (by decide)⟩
